import Mathlib

/-!
Verification of the UOp graph verifier (tinygrad spec.py).

The rule tables, the kernel/index validators and the driver are translated
from src/tinygrad/spec.py.  The surrounding machinery that spec.py consumes
but does not define (the UOp node type with its derived facts, the dtype
library, and the pattern-matcher engine) is modelled from the spec document:
those definitions carry a doc comment saying so.
-/

set_option linter.unusedVariables false

/-- Modelled from the spec: the closed enumeration of operator kinds
(section 3, "a closed enumeration of op kinds").  It contains every op
referenced by src/tinygrad/spec.py plus the remaining members of the
generic ALU group and of the movement family. -/
inductive Ops where
  | UNIQUE | DEVICE | BUFFER | BUFFER_VIEW | KERNEL | ASSIGN | COPY | SINK | STORE | LOAD
  | INDEX | DEFINE_GLOBAL | DEFINE_LOCAL | DEFINE_ACC | DEFINE_VAR | RANGE | SPECIAL
  | VIEW | VALID | CONST | VCONST | BIND | DETACH | CONTIGUOUS | CONTIGUOUS_BACKWARD
  | FUSE | RESHAPE | PERMUTE | EXPAND | PAD | SHRINK | FLIP
  | WHERE | MULACC | CMPLT | CMPNE | SHL | SHR | IDIV | MOD | ADD | MUL | MAX
  | XOR | OR | AND | SUB | FDIV | POW | THREEFRY | EXP2 | LOG2 | SIN | SQRT | RECIP | NEG
  | TRUNC | ENDRANGE | WMMA | CONTRACT | UNROLL | IF | ENDIF | REDUCE_AXIS | GEP
  | VECTORIZE | BITCAST | CAST | BARRIER | NOOP | CUSTOM | CUSTOMI
deriving DecidableEq

/-- Modelled from the spec: scalar dtype tags of the external dtype library. -/
inductive ScalarTy where
  | void | bool | int8 | int16 | int32 | int64 | uint8 | uint16 | uint32 | uint64
  | float16 | bfloat16 | float32 | float64
deriving DecidableEq

/-- Modelled from the spec: a value type is a plain (possibly vectorized)
data type, or a pointer/image variant carrying the element type plus
addressing metadata (declared element count, with -1 the unbounded marker,
and a local flag for pointers). -/
inductive DType where
  | scalar (s : ScalarTy) (count : Nat)
  | ptr (base : DType) (size : Int) (loc : Bool)
  | image (base : DType) (size : Int) (shape : List Nat)
deriving DecidableEq

def dtypes_void : DType := .scalar .void 1

def dtypes_bool : DType := .scalar .bool 1

def dtypes_int : DType := .scalar .int32 1

def dtypes_int64 : DType := .scalar .int64 1

/-- Modelled from the spec: dtypes.uint is the default 32-bit unsigned dtype. -/
def dtypes_uint : DType := .scalar .uint32 1

def dtypes_float : DType := .scalar .float32 1

/-- Modelled from the spec: the base dtype (pointer and image variants expose
their element type, plain dtypes are their own base). -/
def DType.base : DType → DType
  | .ptr b _ _ => b
  | .image b _ _ => b
  | d => d

/-- Modelled from the spec: the scalar (lane-stripped) version of a dtype. -/
def DType.scalarOf : DType → DType
  | .scalar s _ => .scalar s 1
  | d => d

/-- Modelled from the spec: the vector lane count of a dtype. -/
def DType.count : DType → Nat
  | .scalar _ c => c
  | _ => 1

/-- Modelled from the spec: dtype.vec(n), the n-lane vectorized dtype. -/
def DType.vec (d : DType) (n : Nat) : DType :=
  match d with
  | .scalar s _ => .scalar s n
  | d => d

def DType.isImage : DType → Bool
  | .image _ _ _ => true
  | _ => false

/-- Python isinstance(d, (PtrDType, ImageDType)). -/
def DType.isPtrOrImage : DType → Bool
  | .ptr _ _ _ => true
  | .image _ _ _ => true
  | _ => false

/-- Python isinstance(d, PtrDType), ImageDType taken as a separate class. -/
def DType.isPtrStrict : DType → Bool
  | .ptr _ _ _ => true
  | _ => false

/-- Modelled from the spec: the local-memory flag of a pointer dtype. -/
def DType.localFlag : DType → Bool
  | .ptr _ _ l => l
  | _ => false

/-- Modelled from the spec: the declared element count of a pointer or image
dtype; none when the dtype has no such count (Python would raise there). -/
def DType.ptrSizeOf : DType → Option Int
  | .ptr _ sz _ => some sz
  | .image _ sz _ => some sz
  | _ => Option.none

def DType.scalarTy : DType → ScalarTy
  | .scalar s _ => s
  | .ptr b _ _ => b.scalarTy
  | .image b _ _ => b.scalarTy

def ScalarTy.isIntTy : ScalarTy → Bool
  | .int8 | .int16 | .int32 | .int64 | .uint8 | .uint16 | .uint32 | .uint64 => true
  | _ => false

def ScalarTy.isUnsignedTy : ScalarTy → Bool
  | .uint8 | .uint16 | .uint32 | .uint64 => true
  | _ => false

/-- Modelled from the spec: dtypes.is_int of the external dtype library. -/
def dtypesIsInt (d : DType) : Bool := d.scalarTy.isIntTy

/-- Claim-side helper: an unsigned integer dtype (any width). -/
def dtypeIsUnsignedInt (d : DType) : Bool :=
  match d with
  | .scalar s _ => s.isUnsignedTy
  | _ => false

/-- Python isinstance(d, (DType, ImageDType)): in this model every value
type is a DType, so the test is always true. -/
def dtypeIsDTypeOrImage (_ : DType) : Bool := true

mutual
/-- Modelled from the spec (section 3): a node carries an operator tag, a
value type, an ordered sequence of source nodes and an argument payload,
and exposes derived read-only facts: an optional shape (st), the total
element count its access descriptor reports (stArgSize, read through
st_arg.size on STORE sources of a SINK) and a value-range estimate
vmin/vmax. -/
inductive UOp : Type where
  | mk (op : Ops) (dtype : DType) (src : List UOp) (arg : PyVal)
       (st : Option (List Nat)) (stArgSize : Nat) (vmin : Int) (vmax : Int) : UOp
/-- Modelled from the spec: the operator-specific argument payload "may be an
integer, tuple, boolean, or absent"; it can also be a string (device name), an
op tag (reduce arg), a float constant, a node reference (symbolic extents) or
a compiled-program descriptor with a root ast (kernel arg). -/
inductive PyVal : Type where
  | noneV : PyVal
  | intV : Int → PyVal
  | boolV : Bool → PyVal
  | strV : String → PyVal
  | floatV : Int → PyVal
  | opV : Ops → PyVal
  | tupV : List PyVal → PyVal
  | nodeV : UOp → PyVal
  | kernelV : UOp → PyVal
end

def UOp.op : UOp → Ops
  | .mk o _ _ _ _ _ _ _ => o

def UOp.dtype : UOp → DType
  | .mk _ d _ _ _ _ _ _ => d

def UOp.src : UOp → List UOp
  | .mk _ _ s _ _ _ _ _ => s

def UOp.arg : UOp → PyVal
  | .mk _ _ _ a _ _ _ _ => a

def UOp.st : UOp → Option (List Nat)
  | .mk _ _ _ _ t _ _ _ => t

def UOp.stArgSize : UOp → Nat
  | .mk _ _ _ _ _ z _ _ => z

def UOp.vmin : UOp → Int
  | .mk _ _ _ _ _ _ n _ => n

def UOp.vmax : UOp → Int
  | .mk _ _ _ _ _ _ _ x => x

/-- The node's shape when its st is present (x.shape in the source). -/
def UOp.shapeD (u : UOp) : List Nat := u.st.getD []

/-- Node builder for plain nodes with no shape or range facts. -/
def mkU (o : Ops) (d : DType) (s : List UOp) (a : PyVal) : UOp :=
  .mk o d s a Option.none 0 0 0

/-- Node builder for nodes carrying a value-range estimate. -/
def mkR (o : Ops) (d : DType) (s : List UOp) (a : PyVal) (vn vx : Int) : UOp :=
  .mk o d s a Option.none 0 vn vx

/-- Node builder for shaped nodes. -/
def mkS (o : Ops) (d : DType) (s : List UOp) (a : PyVal) (shape : List Nat) (sz : Nat) : UOp :=
  .mk o d s a (some shape) sz 0 0

/-- Python isinstance(x, int): true for ints and for bools, since Python's
bool is a subclass of int. -/
def PyVal.pyIsInt : PyVal → Bool
  | .intV _ => true
  | .boolV _ => true
  | _ => false

def PyVal.pyIsStr : PyVal → Bool
  | .strV _ => true
  | _ => false

def PyVal.pyIsNone : PyVal → Bool
  | .noneV => true
  | _ => false

/-- Python isinstance(x, (int, UOp)). -/
def PyVal.pyIsIntOrNode : PyVal → Bool
  | .intV _ => true
  | .boolV _ => true
  | .nodeV _ => true
  | _ => false

/-- The runtime kind of a payload (Python's type(x)). -/
inductive PyKind where
  | kNone | kInt | kBool | kStr | kFloat | kOp | kTuple | kNode | kKernel
deriving DecidableEq

def PyVal.pyKind : PyVal → PyKind
  | .noneV => .kNone
  | .intV _ => .kInt
  | .boolV _ => .kBool
  | .strV _ => .kStr
  | .floatV _ => .kFloat
  | .opV _ => .kOp
  | .tupV _ => .kTuple
  | .nodeV _ => .kNode
  | .kernelV _ => .kKernel

/-- Modelled from the spec: the runtime kind dtypes.as_const(x, dtype) would
produce: a tuple for vectorized dtypes, otherwise the kind matching the
scalar tag (bool, int or float). -/
def constKind (d : DType) : PyKind :=
  if d.count > 1 then .kTuple
  else match d.scalarTy with
    | .bool => .kBool
    | .void => .kNone
    | .float16 | .bfloat16 | .float32 | .float64 => .kFloat
    | _ => .kInt

/-- Python x.arg[1:] as used on SPECIAL nodes: the components after the
first of a tuple argument (empty for non-tuple payloads). -/
def PyVal.argTail : PyVal → List PyVal
  | .tupV l => l.drop 1
  | _ => []

mutual
/-- Modelled from the spec: the full dependency closure of a node
(u.toposort in the source), the node itself included.  Order and
duplication are irrelevant here: the verifier only tests membership. -/
def toposortN : UOp → List UOp
  | .mk o d s a t z vn vx => .mk o d s a t z vn vx :: toposortL s
def toposortL : List UOp → List UOp
  | [] => []
  | u :: us => toposortN u ++ toposortL us
end

/-- Modelled from the spec: u.base resolves through VIEW wrappers to the
underlying node ("its first source's base" for a view, itself otherwise). -/
def UOp.base (u : UOp) : UOp :=
  match u with
  | .mk .VIEW _ (s :: _) _ _ _ _ _ => s.base
  | _ => u

/-- tinygrad helpers.all_same: every element equals the first. -/
def allSame {α : Type} [BEq α] : List α → Bool
  | [] => true
  | x :: xs => (x :: xs).all (· == x)

/-- Python zip(*ls): the list of columns, truncated at the shortest row. -/
def pyZip (ls : List (List Nat)) : List (List Nat) :=
  match ls with
  | [] => []
  | l0 :: rest =>
    (List.range ((rest.map List.length).foldl min l0.length)).map
      (fun i => (l0 :: rest).map (fun l => l.getD i 0))

/-- Python sorted(dedup(dims)): the distinct values in ascending order. -/
def sortedDedup (l : List Nat) : List Nat :=
  List.insertionSort (· ≤ ·) l.dedup

/-- Modelled from the spec: a rule's structural pattern for a source
position; in the rule tables of spec.py source sub-patterns only constrain
the operator tag (one or a set) and the value type (exact or any). -/
structure UPatI where
  iop : Option (List Ops)
  idt : Option DType

/-- Modelled from the spec: the source arity/shape part of a pattern: any
sources, an exact positional tuple, a tuple prefix (allow_any_len), or
every source matching one sub-pattern. -/
inductive USrc where
  | anySrc : USrc
  | fixedSrc : List UPatI → USrc
  | atLeastSrc : List UPatI → USrc
  | eachSrc : UPatI → USrc

/-- Modelled from the spec: a top-level structural pattern matches on the
operator tag (one or a set), the value type (exact or any) and the source
arity/shape.  Name captures are realised by the predicates reading the
matched node's fields directly. -/
structure UPat where
  pop : Option (List Ops)
  pdt : Option DType
  psrc : USrc

def opsMatch : Option (List Ops) → Ops → Bool
  | Option.none, _ => true
  | some l, o => l.contains o

def dtMatch : Option DType → DType → Bool
  | Option.none, _ => true
  | some d, d2 => d2 == d

def upatIMatch (p : UPatI) (u : UOp) : Bool :=
  opsMatch p.iop u.op && dtMatch p.idt u.dtype

def matchLeaves : List UPatI → List UOp → Bool
  | [], [] => true
  | p :: ps, u :: us => upatIMatch p u && matchLeaves ps us
  | _, _ => false

def usrcMatch : USrc → List UOp → Bool
  | .anySrc, _ => true
  | .fixedSrc ps, us => matchLeaves ps us
  | .atLeastSrc ps, us => decide (ps.length ≤ us.length) && matchLeaves ps (us.take ps.length)
  | .eachSrc p, us => us.all (upatIMatch p)

def upatMatch (p : UPat) (u : UOp) : Bool :=
  opsMatch p.pop u.op && dtMatch p.pdt u.dtype && usrcMatch p.psrc u.src

/-- The three-valued outcome of evaluating one rule's predicate, plus the
hard-failure outcome of a predicate that raises (assertion or similar)
outside the accept/reject protocol. -/
inductive SpecRet where
  | ok (b : Bool)
  | abstain
  | fatal (msg : String)
deriving DecidableEq

/-- A rule: a structural pattern paired with a predicate on the matched
node. -/
abbrev VRule := UPat × (UOp → SpecRet)

/-- A rule set: an ordered list of rules. -/
abbrev VSpec := List VRule

/-- Modelled from the spec: PatternMatcher.rewrite tries the rules top to
bottom; the first rule whose pattern matches and whose predicate does not
abstain decides; a raising predicate propagates immediately. -/
def pmRewrite : VSpec → UOp → SpecRet
  | [], _ => .abstain
  | (p, f) :: rest, u =>
    if upatMatch p u then
      match f u with
      | .abstain => pmRewrite rest u
      | r => r
    else pmRewrite rest u

def upA : UPatI := ⟨Option.none, Option.none⟩

def upOps (l : List Ops) : UPatI := ⟨some l, Option.none⟩

def upDt (d : DType) : UPatI := ⟨Option.none, some d⟩

def pat (l : List Ops) (s : USrc) : UPat := ⟨some l, Option.none, s⟩

def patD (l : List Ops) (d : DType) (s : USrc) : UPat := ⟨some l, some d, s⟩

def acceptAlways : UOp → SpecRet := fun _ => .ok true

def rejectAlways : UOp → SpecRet := fun _ => .ok false

/-- Modelled from the spec: GroupOp.All, the full closed set of operator
kinds. -/
def GroupOpAll : List Ops :=
  [.UNIQUE, .DEVICE, .BUFFER, .BUFFER_VIEW, .KERNEL, .ASSIGN, .COPY, .SINK, .STORE, .LOAD,
   .INDEX, .DEFINE_GLOBAL, .DEFINE_LOCAL, .DEFINE_ACC, .DEFINE_VAR, .RANGE, .SPECIAL,
   .VIEW, .VALID, .CONST, .VCONST, .BIND, .DETACH, .CONTIGUOUS, .CONTIGUOUS_BACKWARD,
   .FUSE, .RESHAPE, .PERMUTE, .EXPAND, .PAD, .SHRINK, .FLIP,
   .WHERE, .MULACC, .CMPLT, .CMPNE, .SHL, .SHR, .IDIV, .MOD, .ADD, .MUL, .MAX,
   .XOR, .OR, .AND, .SUB, .FDIV, .POW, .THREEFRY, .EXP2, .LOG2, .SIN, .SQRT, .RECIP, .NEG,
   .TRUNC, .ENDRANGE, .WMMA, .CONTRACT, .UNROLL, .IF, .ENDIF, .REDUCE_AXIS, .GEP,
   .VECTORIZE, .BITCAST, .CAST, .BARRIER, .NOOP, .CUSTOM, .CUSTOMI]

/-- Modelled from the spec: the generic ALU group (unary, binary and ternary
arithmetic/logic ops). -/
def GroupOpALU : List Ops :=
  [.EXP2, .LOG2, .SIN, .SQRT, .RECIP, .NEG, .TRUNC,
   .ADD, .MUL, .IDIV, .MAX, .MOD, .CMPLT, .CMPNE, .XOR, .SHL, .SHR, .OR, .AND,
   .THREEFRY, .SUB, .FDIV, .POW,
   .WHERE, .MULACC]

/-- GroupOp.All - Ops.SINK as used by the sched and shape catch-all rules. -/
def allOpsExceptSink : List Ops := GroupOpAll.filter (fun o => o != Ops.SINK)

/-- spec.py buffer_spec (lines 6-13). -/
def buffer_spec : VSpec := [
  (patD [.UNIQUE] dtypes_void (.fixedSrc []), acceptAlways),
  (patD [.DEVICE] dtypes_void (.fixedSrc []),
    fun device => .ok device.arg.pyIsStr),
  (pat [.BUFFER] (.fixedSrc [upOps [.DEVICE], upOps [.UNIQUE]]),
    fun buf => .ok (buf.arg.pyIsInt && dtypeIsDTypeOrImage buf.dtype)),
  (pat [.BUFFER_VIEW] (.fixedSrc [upOps [.BUFFER]]),
    fun bv => .ok (match bv.arg with
      | .tupV l => (l.length == 2) && l.all PyVal.pyIsIntOrNode
      | _ => false))
]

/-- spec.py validate_kernel (lines 15-18): the two assert statements become
fatal outcomes; a node whose arg is not a kernel descriptor would raise an
AttributeError in Python, also a fatal outcome. -/
def validate_kernel (k : UOp) : SpecRet :=
  match k.arg with
  | .kernelV ast =>
    if !(ast.op == Ops.COPY || ast.op == Ops.BUFFER_VIEW || ast.op == Ops.SINK) then
      .fatal "must end with SINK/COPY/BUFFER_VIEW"
    else if ast.op == Ops.SINK && !(ast.src.all (fun s => s.op == Ops.STORE)) then
      .fatal "SINK must end with STORE"
    else .ok true
  | _ => .fatal "kernel arg has no ast"

/-- spec.py assign_spec (lines 20-27); x.src[0] on a source-less ASSIGN
would raise an IndexError in Python, a fatal outcome. -/
def assign_spec : VSpec := [
  (pat [.KERNEL] (.eachSrc (upOps [.BUFFER, .BUFFER_VIEW, .ASSIGN])), validate_kernel),
  (pat [.ASSIGN] .anySrc,
    fun x => match x.src with
      | [] => .fatal "list index out of range"
      | s0 :: _ =>
        .ok ((s0.base.op == Ops.BUFFER || s0.base.op == Ops.BUFFER_VIEW) &&
             (x.src.length == 2 || (x.src.drop 2).all (fun s => s.op == Ops.ASSIGN))))
]

/-- The trigger test inside validate_index (line 64): a runtime-variable
definition, a reinterpret-cast, or a hardware-special-id with a non-integer
argument component. -/
def oobEscape (x : UOp) : Bool :=
  x.op == Ops.DEFINE_VAR || x.op == Ops.BITCAST ||
  (x.op == Ops.SPECIAL && x.arg.argTail.any (fun y => !y.pyIsInt))

/-- The diagnostic printed by validate_index on an out-of-bounds reject:
the offending min/max range, the bound, and the offset expression (held as
a node for the external rendering helper). -/
structure OOBDiag where
  dmin : Int
  dmax : Int
  bound : Int
  expr : UOp

/-- The diagnostic validate_index reports (line 68), built from the offset
source's range, the buffer dtype's declared count and the offset node. -/
def oob_diag (idx : UOp) : Option OOBDiag :=
  match idx.src with
  | i0 :: i1 :: _ =>
    match i0.dtype.ptrSizeOf with
    | some sz => some ⟨i1.vmin, i1.vmax, sz, i1⟩
    | Option.none => Option.none
  | _ => Option.none

/-- spec.py validate_index (lines 59-70).  getenv("IGNORE_OOB") becomes the
explicit flag oob; reading .size off a dtype that carries none (Python
AttributeError) and a missing second source (IndexError) are fatal. -/
def validate_index (oob : Bool) (idx : UOp) (mask : Option UOp) : SpecRet :=
  if oob then .ok true
  else if mask.isNone && !idx.dtype.isImage then
    if (toposortN idx).any oobEscape then .ok true
    else match idx.src with
      | i0 :: i1 :: _ =>
        match i0.dtype.ptrSizeOf with
        | some sz =>
          if sz != -1 && (i1.vmin < 0 || i1.vmax ≥ sz) then .ok false else .ok true
        | Option.none => .fatal "dtype has no size"
      | _ => .fatal "list index out of range"
  else .ok true

/-- Python prod(y[1] for y in x.arg) as used by CONTRACT and UNROLL: the
product of the second components of a tuple of pairs; none when the payload
is not of that form (Python would raise there). -/
def prodArgCounts (a : PyVal) : Option Nat :=
  match a with
  | .tupV l =>
    l.foldr (fun y acc =>
      match y, acc with
      | .tupV (_ :: .intV n :: _), some m => some (n.toNat * m)
      | _, _ => Option.none) (some 1)
  | _ => Option.none

/-- spec.py spec (lines 74-150), the matcher for the final rendered UOps,
parameterized by the IGNORE_OOB flag read inside validate_index. -/
def spec (oob : Bool) : VSpec := [
  (pat [.DEFINE_GLOBAL] .anySrc,
    fun x => .ok (x.dtype.isPtrOrImage && !x.dtype.localFlag)),
  (pat [.DEFINE_LOCAL] .anySrc,
    fun x => .ok (x.dtype.isPtrStrict && x.dtype.localFlag)),
  (pat [.DEFINE_ACC] (.atLeastSrc [upA]),
    fun x => match x.src with
      | c :: _ => .ok ((x.src.drop 1).all (fun y => y.op == Ops.RANGE) && c.dtype == x.dtype)
      | _ => .abstain),
  (pat [.DEFINE_VAR] .anySrc,
    fun x => match x.arg with
      | .tupV (_ :: a1 :: a2 :: _) => .ok (a1.pyIsInt && a2.pyIsInt)
      | _ => .fatal "arg is not a long enough tuple"),

  (pat [.RANGE] (.fixedSrc [upA, upA]),
    fun rng => match rng.src with
      | [x, y] => .ok (rng.dtype == x.dtype && x.dtype == y.dtype && rng.arg.pyIsInt)
      | _ => .abstain),
  (pat [.SPECIAL] (.fixedSrc []), acceptAlways),

  (patD [.VIEW] dtypes_void (.fixedSrc []), acceptAlways),
  (pat [.VIEW] (.fixedSrc [upA]),
    fun x => match x.src with
      | [s] => .ok (s.op != Ops.STORE && x.dtype.base == s.dtype.base)
      | _ => .abstain),

  (patD [.VALID] dtypes_bool (.fixedSrc [upOps [.VIEW]]), acceptAlways),
  (pat [.CONST] .anySrc,
    fun x => .ok (x.arg.pyKind == constKind x.dtype)),

  (pat [.LOAD] (.fixedSrc [upOps [.DEFINE_GLOBAL, .DEFINE_LOCAL], upOps [.VIEW]]),
    acceptAlways),
  (pat [.LOAD] (.fixedSrc [upOps [.DEFINE_GLOBAL, .DEFINE_LOCAL], upOps [.VIEW], upOps [.STORE]]),
    acceptAlways),

  (pat [.STORE] (.fixedSrc [upOps [.DEFINE_GLOBAL, .DEFINE_LOCAL], upOps [.VIEW], upA]),
    acceptAlways),

  (pat [.INDEX] (.fixedSrc [upOps [.DEFINE_GLOBAL, .DEFINE_LOCAL], upA]),
    fun idx => validate_index oob idx Option.none),
  (pat [.INDEX] (.fixedSrc [upOps [.DEFINE_GLOBAL, .DEFINE_LOCAL], upA, upDt dtypes_bool]),
    fun idx => validate_index oob idx ((idx.src.drop 2).head?)),

  (pat [.LOAD] (.fixedSrc [upOps [.INDEX, .CAST]]), acceptAlways),
  (pat [.LOAD] (.fixedSrc [upOps [.INDEX, .CAST], upOps [.IF, .BARRIER]]), acceptAlways),
  (pat [.LOAD] (.fixedSrc [upOps [.INDEX, .CAST], upA]),
    fun ld => match ld.src with
      | [_, alt] => .ok (ld.dtype == alt.dtype)
      | _ => .abstain),

  (patD [.STORE] dtypes_void (.fixedSrc [upOps [.INDEX, .CAST], upA]), acceptAlways),
  (patD [.STORE] dtypes_void (.fixedSrc [upOps [.INDEX, .CAST], upA, upDt dtypes_bool]),
    acceptAlways),
  (patD [.STORE] dtypes_void (.fixedSrc [upOps [.INDEX, .CAST], upA, upOps [.IF]]),
    acceptAlways),

  (pat [.WHERE] (.fixedSrc [upDt dtypes_bool, upA, upA]),
    fun w => match w.src with
      | [_, x, y] => .ok (w.dtype == x.dtype && x.dtype == y.dtype)
      | _ => .abstain),
  (patD [.CMPLT, .CMPNE] dtypes_bool (.fixedSrc [upA, upA]),
    fun c => match c.src with
      | [x, y] => .ok (x.dtype.base == y.dtype.base)
      | _ => .abstain),
  (pat [.SHL, .SHR] (.fixedSrc [upA, upA]),
    fun a => match a.src with
      | [x, y] => .ok (a.dtype == x.dtype && (y.dtype == x.dtype || y.dtype == dtypes_uint))
      | _ => .abstain),
  (pat [.IDIV, .MOD] .anySrc,
    fun x => if dtypesIsInt x.dtype then .abstain else .ok false),
  (pat GroupOpALU .anySrc,
    fun x => .ok (x.src.all (fun y => x.dtype.base == y.dtype.base))),

  (pat [.ASSIGN] (.fixedSrc [upOps [.DEFINE_ACC, .DEFINE_GLOBAL], upA]), acceptAlways),
  (patD [.ENDRANGE] dtypes_void (.fixedSrc [upOps [.RANGE]]), acceptAlways),

  (pat [.WMMA] (.fixedSrc [upA, upA, upA]),
    fun x => .ok (match x.arg with
      | .tupV l => l.length == 8
      | _ => false)),
  (pat [.CONTRACT] .anySrc,
    fun x => match prodArgCounts x.arg with
      | some n => .ok (x.dtype.count == n)
      | Option.none => .fatal "arg is not a tuple of pairs"),
  (pat [.UNROLL] .anySrc,
    fun x => match x.src with
      | s :: _ =>
        (match prodArgCounts x.arg with
          | some n => .ok (s.dtype.count == n)
          | Option.none => .fatal "arg is not a tuple of pairs")
      | [] => .fatal "list index out of range"),

  (patD [.IF] dtypes_void (.fixedSrc [upA]), acceptAlways),
  (patD [.IF] dtypes_void (.fixedSrc [upA, upOps [.BARRIER]]), acceptAlways),
  (patD [.ENDIF] dtypes_void (.fixedSrc [upOps [.IF]]), acceptAlways),

  (pat [.REDUCE_AXIS] .anySrc,
    fun x => .ok (match x.arg with
      | .tupV l =>
        decide (l.length ≥ 2) &&
        (match l with
          | .opV o :: _ => o == Ops.ADD || o == Ops.MUL || o == Ops.MAX
          | _ => false)
      | _ => false)),
  (pat [.GEP] (.fixedSrc [upA]),
    fun gep => match gep.src with
      | [s] => .ok (gep.dtype == s.dtype.scalarOf)
      | _ => .abstain),
  (pat [.VECTORIZE] .anySrc,
    fun x => .ok (decide (x.src.length > 1) && x.src.length == x.dtype.count &&
                  x.src.all (fun y => x.dtype == y.dtype.vec x.src.length))),
  (pat [.BITCAST, .CAST] (.fixedSrc [upA]),
    fun x => .ok x.arg.pyIsNone),
  (patD [.BARRIER] dtypes_void (.eachSrc (upOps [.STORE])), acceptAlways),
  (patD [.BARRIER] dtypes_void .anySrc, acceptAlways),

  (patD [.SINK] dtypes_void .anySrc, acceptAlways),
  (pat [.NOOP, .CUSTOMI, .CUSTOM] .anySrc, acceptAlways),

  (pat [.LOAD, .STORE] (.atLeastSrc [upDt dtypes_int64]), acceptAlways)
]

/-- spec.py sched_spec (lines 154-156). -/
def sched_spec : VSpec :=
  buffer_spec ++ assign_spec ++ [
    (pat allOpsExceptSink .anySrc, rejectAlways)
  ]

/-- spec.py verify_sink_dims (lines 160-162). -/
def verify_sink_dims (sink : UOp) : Bool :=
  let shape_dims :=
    (pyZip (((toposortN sink).filter
        (fun x => x.op != Ops.SINK && x.st.isSome)).map UOp.shapeD)).map sortedDedup
  allSame (sink.src.map UOp.stArgSize) &&
  shape_dims.all (fun x => x.length == 1 || (x.length == 2 && x.headD 0 == 1))

/-- spec.py shape_spec (lines 164-169). -/
def shape_spec : VSpec := [
  (pat [.SINK] (.eachSrc (upOps [.STORE])),
    fun sink => .ok (verify_sink_dims sink)),
  (pat allOpsExceptSink .anySrc,
    fun root => .ok (allSame ((root.src.filter (fun x => x.st.isSome)).map UOp.shapeD)))
]

/-- The outcome of the verification driver: normal return, the indexed
RuntimeError diagnostic, or a propagated hard assertion. -/
inductive VResult where
  | okV : VResult
  | errV (i : Nat) (op : Ops) (dtype : DType) (nsrc : Nat) (srcOps : List Ops) (arg : PyVal) : VResult
  | assertFail (msg : String) : VResult

/-- The per-node evaluation of every active rule set in order (the list
comprehension in type_verify line 176); a raising predicate propagates. -/
def specRetsAt : List VSpec → UOp → Except String (List (Option Bool))
  | [], _ => .ok []
  | s :: rest, u =>
    match pmRewrite s u with
    | .fatal msg => .error msg
    | .ok b => (specRetsAt rest u).map (fun l => some b :: l)
    | .abstain => (specRetsAt rest u).map (fun l => Option.none :: l)

/-- The driver loop of type_verify (lines 175-179) carrying the running
index. -/
def type_verify_from (specs : List VSpec) (i : Nat) : List UOp → VResult
  | [] => .okV
  | u :: rest =>
    match specRetsAt specs u with
    | .error msg => .assertFail msg
    | .ok rets =>
      if rets.any (fun r => r == some false) || rets.all (fun r => r == (Option.none : Option Bool)) then
        .errV i u.op u.dtype u.src.length (u.src.map UOp.op) u.arg
      else type_verify_from specs (i + 1) rest

/-- spec.py type_verify (lines 173-179): the low-level op rule set is always
included ahead of the extra rule sets. -/
def type_verify (oob : Bool) (uops : List UOp) (extra_specs : List VSpec) : VResult :=
  type_verify_from (spec oob :: extra_specs) 0 uops

/-- The Option Bool view of a rule-set outcome as stored in the driver's
per-node result list (bool or None in the source). -/
def retOpt : SpecRet → Option Bool
  | .ok b => some b
  | _ => Option.none

/-- Claim-side: the node receives reject (False) from at least one active
rule set. -/
def nodeRejects (specs : List VSpec) (u : UOp) : Prop :=
  ∃ s ∈ specs, pmRewrite s u = SpecRet.ok false

/-- Claim-side: the node receives abstain (None) from every active rule
set. -/
def nodeAllAbstain (specs : List VSpec) (u : UOp) : Prop :=
  ∀ s ∈ specs, pmRewrite s u = SpecRet.abstain

/-- Claim-side: the node fails verification (rejected by some set, or
abstained on by all sets). -/
def nodeFails (specs : List VSpec) (u : UOp) : Prop :=
  nodeRejects specs u ∨ nodeAllAbstain specs u

/-- Claim-side: no active rule set raises a hard failure on the node. -/
def nodeNoFatal (specs : List VSpec) (u : UOp) : Prop :=
  ∀ s ∈ specs, ∀ msg, pmRewrite s u ≠ SpecRet.fatal msg

/-- Claim-side: the node passes (no hard failure and no soft failure). -/
def nodeClean (specs : List VSpec) (u : UOp) : Prop :=
  nodeNoFatal specs u ∧ ¬ nodeFails specs u

/-- The operator kinds the scheduler-graph rule set can accept: the buffer
topology family plus assigns and kernels. -/
def admittedOps : List Ops :=
  [.UNIQUE, .DEVICE, .BUFFER, .BUFFER_VIEW, .KERNEL, .ASSIGN]

/-- A device node (end-to-end scenario A shape). -/
def exDev : UOp := mkU .DEVICE dtypes_void [] (.strV "CPU")

/-- A unique-id node. -/
def exUniq : UOp := mkU .UNIQUE dtypes_void [] .noneV

/-- A kernel node whose descriptor root is an ADD, which is none of
COPY/BUFFER_VIEW/SINK: the kernel validator raises on it. -/
def c1_kernel : UOp := mkU .KERNEL dtypes_void [] (.kernelV (mkU .ADD dtypes_int [] .noneV))

/-- A well-formed kernel descriptor root: a SINK whose sources are all
STORE nodes. -/
def c2_ast : UOp := mkU .SINK dtypes_void [mkU .STORE dtypes_void [] .noneV] .noneV

/-- A well-formed kernel node carrying that descriptor. -/
def c2_kernel : UOp := mkU .KERNEL dtypes_void [] (.kernelV c2_ast)

/-- A runtime-variable definition node. -/
def c3_dvar : UOp := mkU .DEFINE_VAR dtypes_int [] (.tupV [.strV "v", .intV 0, .intV 10])

/-- A buffer declaration of element count 3 whose own source subtree hides a
DEFINE_VAR. -/
def c3_buf : UOp := mkU .DEFINE_GLOBAL (.ptr dtypes_float 3 false) [c3_dvar] (.intV 0)

/-- An offset expression with statically-known range 5..5 and no
escape-trigger dependency of its own. -/
def c3_off : UOp := mkR .ADD dtypes_int [] .noneV 5 5

/-- An INDEX whose offset range 5..5 lies outside the declared count 3, but
whose buffer subtree contains a DEFINE_VAR. -/
def c3_idx : UOp := mkU .INDEX dtypes_float [c3_buf, c3_off] .noneV

/-- A trigger-free buffer declaration of element count 8. -/
def c3w_buf : UOp := mkU .DEFINE_GLOBAL (.ptr dtypes_float 8 false) [] (.intV 0)

/-- An offset expression with range 0..9. -/
def c3w_off : UOp := mkR .ADD dtypes_int [] .noneV 0 9

/-- An INDEX with range 0..9 against declared count 8: genuinely out of
bounds. -/
def c3w_idx : UOp := mkU .INDEX dtypes_float [c3w_buf, c3w_off] .noneV

/-- A shaped STORE of rank 1. -/
def c4_store1 : UOp := mkS .STORE dtypes_void [] .noneV [2] 10

/-- A shaped STORE of rank 2, second dimension 5. -/
def c4_store2 : UOp := mkS .STORE dtypes_void [] .noneV [2, 5] 10

/-- A shaped STORE of rank 2, second dimension 7. -/
def c4_store3 : UOp := mkS .STORE dtypes_void [] .noneV [2, 7] 10

/-- A SINK over ragged-rank stores: dimension index 1 carries the distinct
sizes 5 and 7, but the zip-based collection never looks at it. -/
def c4_sink : UOp := mkU .SINK dtypes_void [c4_store1, c4_store2, c4_store3] .noneV

/-- A shaped STORE of shape 1 x 5. -/
def c4w_store1 : UOp := mkS .STORE dtypes_void [] .noneV [1, 5] 10

/-- A shaped STORE of shape 3 x 5. -/
def c4w_store2 : UOp := mkS .STORE dtypes_void [] .noneV [3, 5] 10

/-- A broadcast-legal SINK: dimension sets are a 1-3 pair and a singleton 5,
and the store sizes agree. -/
def c4w_sink : UOp := mkU .SINK dtypes_void [c4w_store1, c4w_store2] .noneV

/-- A constant node used as a non-STORE barrier source. -/
def c5_const : UOp := mkU .CONST dtypes_int [] (.intV 0)

/-- A void BARRIER whose single source is a CONST, not a STORE. -/
def c5_barrier : UOp := mkU .BARRIER dtypes_void [c5_const] .noneV

/-- A bare SINK node presented to the scheduler-graph rule set. -/
def c6_sink : UOp := mkU .SINK dtypes_void [] .noneV

/-- A RANGE node, an operator kind outside the scheduler-admitted set. -/
def c6_range : UOp := mkU .RANGE dtypes_int [] (.intV 0)

/-- A BUFFER node with no sources at all and a non-integer argument. -/
def c7_buf : UOp := mkU .BUFFER dtypes_float [] (.strV "x")

/-- A BUFFER with the device/unique source pair required by the pattern but
a non-integer (string) argument. -/
def c7w_buf : UOp := mkU .BUFFER dtypes_float [exDev, exUniq] (.strV "x")

/-- The left operand of the shifts: an int32 constant. -/
def c8_x : UOp := mkU .CONST dtypes_int [] (.intV 0)

/-- A shift amount of dtype uint8: an unsigned integer dtype that is not
dtypes.uint. -/
def c8_y : UOp := mkU .CONST (.scalar .uint8 1) [] (.intV 1)

/-- A SHL whose shift amount is uint8-typed. -/
def c8_shl : UOp := mkU .SHL dtypes_int [c8_x, c8_y] .noneV

/-- A shift amount of dtype dtypes.uint (uint32). -/
def c8w_y : UOp := mkU .CONST dtypes_uint [] (.intV 1)

/-- A SHL whose shift amount is dtypes.uint-typed. -/
def c8w_shl : UOp := mkU .SHL dtypes_int [c8_x, c8w_y] .noneV

/-- A trigger-free buffer declaration of element count 4. -/
def c9_buf : UOp := mkU .DEFINE_GLOBAL (.ptr dtypes_float 4 false) [] (.intV 0)

/-- An offset expression with range 10..10, outside count 4. -/
def c9_off : UOp := mkR .ADD dtypes_int [] .noneV 10 10

/-- An out-of-bounds INDEX: rejected without the override flag, accepted
with it. -/
def c9_idx : UOp := mkU .INDEX dtypes_float [c9_buf, c9_off] .noneV

/-- A CAST to int64 (an address computation). -/
def c10_cast : UOp := mkU .CAST dtypes_int64 [mkU .CONST dtypes_int [] (.intV 0)] .noneV

/-- An int32 alternative value. -/
def c10_alt : UOp := mkU .CONST dtypes_int [] (.intV 0)

/-- A float32 LOAD from an int64 CAST with an int32 alternative value: its
first source has dtype int64 yet the indexed-load dtype-agreement rule
fires first and rejects. -/
def c10_load : UOp := mkU .LOAD dtypes_float [c10_cast, c10_alt] .noneV

/-- A bare int64 address expression. -/
def c10w_addr : UOp := mkR .ADD dtypes_int64 [] .noneV 0 0

/-- A float32 LOAD straight from an int64 address: caught only by the
PTX-style catch-all rule. -/
def c10w_load : UOp := mkU .LOAD dtypes_float [c10w_addr] .noneV

/-- Claim-side: the distinct sizes appearing at dimension index i across the
shaped non-SINK nodes in the given node's full dependency closure. -/
def sizesAtDim (sink : UOp) (i : Nat) : Finset Nat :=
  ((((toposortN sink).filter (fun x => x.op != Ops.SINK && x.st.isSome)).map UOp.shapeD).filterMap
    (fun shape => shape[i]?)).toFinset

theorem mem_GroupOpAll (o : Ops) : o ∈ GroupOpAll := by cases o <;> decide

theorem mem_allOpsExceptSink (o : Ops) (h : o ≠ Ops.SINK) : o ∈ allOpsExceptSink := by
  simp [allOpsExceptSink, List.mem_filter, mem_GroupOpAll, h]

theorem pmRewrite_fired (rules : VSpec) (u : UOp) (r : SpecRet) (h : pmRewrite rules u = r)
    (hne : r ≠ SpecRet.abstain) :
    ∃ p f, (p, f) ∈ rules ∧ upatMatch p u = true ∧ f u = r := by
  induction rules with
  | nil =>
    simp only [pmRewrite] at h
    exact absurd h.symm (by simpa using hne)
  | cons pf rest ih =>
    obtain ⟨p, f⟩ := pf
    by_cases hm : upatMatch p u = true
    · simp only [pmRewrite, hm, if_true] at h
      cases hf : f u with
      | abstain =>
        simp only [hf] at h
        obtain ⟨p2, f2, hmem, hm2, hf2⟩ := ih h
        exact ⟨p2, f2, List.mem_cons_of_mem _ hmem, hm2, hf2⟩
      | ok b =>
        simp only [hf] at h
        exact ⟨p, f, List.mem_cons_self _ _, hm, by rw [hf, h]⟩
      | fatal msg =>
        simp only [hf] at h
        exact ⟨p, f, List.mem_cons_self _ _, hm, by rw [hf, h]⟩
    · simp only [pmRewrite, hm, if_false] at h
      obtain ⟨p2, f2, hmem, hm2, hf2⟩ := ih h
      exact ⟨p2, f2, List.mem_cons_of_mem _ hmem, hm2, hf2⟩

theorem allSame_iff {α : Type} [BEq α] [LawfulBEq α] (l : List α) :
    allSame l = true ↔ ∀ a ∈ l, ∀ b ∈ l, a = b := by
  cases l with
  | nil => simp [allSame]
  | cons x xs =>
    simp only [allSame, List.all_eq_true, beq_iff_eq]
    constructor
    · intro h a ha b hb
      rw [h a ha, h b hb]
    · intro h a ha
      exact h a ha x (List.mem_cons_self _ _)

/-- C5 (corrected): a BARRIER node is accepted by the low-level op rule set
exactly when its dtype is void, regardless of its sources (the trailing
end-of-loop barrier rule accepts any void BARRIER); a non-void BARRIER gets
abstain from every rule. -/
theorem barrier_void_always_accepted (oob : Bool) (u : UOp) (h : u.op = Ops.BARRIER) :
    pmRewrite (spec oob) u = (if u.dtype = dtypes_void then .ok true else .abstain) := by
  obtain ⟨o, d, s, a, t, z, vn, vx⟩ := u
  simp only [UOp.op] at h
  subst h
  simp only [spec, pmRewrite, upatMatch, opsMatch, dtMatch, usrcMatch, upatIMatch,
    UOp.op, UOp.dtype, UOp.src, matchLeaves, pat, patD, upA, upOps, upDt,
    acceptAlways, GroupOpALU]
  by_cases hd : d = dtypes_void
  · simp [hd]
  · simp [hd]

/-- C5 witness: the theorem applied to the concrete void BARRIER whose only
source is a CONST. -/
theorem barrier_void_always_accepted_witness :
    c5_barrier.op = Ops.BARRIER ∧ pmRewrite (spec false) c5_barrier = .ok true := by
  refine ⟨rfl, ?_⟩
  rw [barrier_void_always_accepted false c5_barrier rfl]
  rfl

/-- C5 counterexample: a void BARRIER over a CONST source is accepted by the
low-level op rule set although its source list is nonempty and contains no
STORE, contradicting the claim that such a BARRIER is not accepted. -/
theorem barrier_nonstore_accepted_cex :
    pmRewrite (spec false) c5_barrier = .ok true ∧
    c5_barrier.src ≠ [] ∧ ¬(∀ s ∈ c5_barrier.src, s.op = Ops.STORE) := by
  refine ⟨rfl, by simp [c5_barrier, mkU, UOp.src], ?_⟩
  intro h
  exact absurd (h c5_const (by simp [c5_barrier, mkU, UOp.src])) (by decide)

/-- C6 (corrected): the scheduler-graph rule set rejects every node whose
operator kind is outside the admitted buffer-family/assign/kernel set, with
the single exception of SINK, on which every rule abstains; and only nodes
of the admitted kinds can be accepted. -/
theorem sched_spec_admits_and_rejects :
    (∀ u : UOp, u.op ∉ admittedOps → u.op ≠ Ops.SINK → pmRewrite sched_spec u = .ok false) ∧
    (∀ u : UOp, u.op = Ops.SINK → pmRewrite sched_spec u = .abstain) ∧
    (∀ u : UOp, pmRewrite sched_spec u = .ok true → u.op ∈ admittedOps) := by
  refine ⟨?_, ?_, ?_⟩
  · intro u ho hs
    have hmem : u.op ∈ allOpsExceptSink := mem_allOpsExceptSink u.op hs
    simp [admittedOps] at ho
    obtain ⟨h1, h2, h3, h4, h5, h6⟩ := ho
    obtain ⟨o, d, s, ar, t, z, vn, vx⟩ := u
    simp only [UOp.op] at h1 h2 h3 h4 h5 h6 hmem
    simp [sched_spec, buffer_spec, assign_spec, pmRewrite, upatMatch, opsMatch, dtMatch,
      usrcMatch, upatIMatch, UOp.op, UOp.dtype, UOp.src, matchLeaves, pat, patD, upA, upOps,
      upDt, rejectAlways, h1, h2, h3, h4, h5, h6, hmem]
  · intro u hs
    have hnot : Ops.SINK ∉ allOpsExceptSink := by decide
    obtain ⟨o, d, s, ar, t, z, vn, vx⟩ := u
    simp only [UOp.op] at hs
    subst hs
    simp [sched_spec, buffer_spec, assign_spec, pmRewrite, upatMatch, opsMatch, dtMatch,
      usrcMatch, upatIMatch, UOp.op, UOp.dtype, UOp.src, matchLeaves, pat, patD, upA, upOps,
      upDt, rejectAlways, hnot]
  · intro u h
    obtain ⟨p, f, hmem, hm, hf⟩ := pmRewrite_fired _ _ _ h (by simp)
    simp only [sched_spec, buffer_spec, assign_spec, List.mem_append, List.mem_cons,
      List.not_mem_nil, or_false, Prod.mk.injEq] at hmem
    rcases hmem with ((⟨hp, hfe⟩ | ⟨hp, hfe⟩ | ⟨hp, hfe⟩ | ⟨hp, hfe⟩) | (⟨hp, hfe⟩ | ⟨hp, hfe⟩)) | ⟨hp, hfe⟩ <;>
      subst hp
    · simp [upatMatch, opsMatch, patD] at hm
      simp [admittedOps, hm.1]
    · simp [upatMatch, opsMatch, patD] at hm
      simp [admittedOps, hm.1]
    · simp [upatMatch, opsMatch, pat] at hm
      simp [admittedOps, hm.1]
    · simp [upatMatch, opsMatch, pat] at hm
      simp [admittedOps, hm.1]
    · simp [upatMatch, opsMatch, pat] at hm
      simp [admittedOps, hm.1]
    · simp [upatMatch, opsMatch, pat] at hm
      simp [admittedOps, hm.1]
    · subst hfe
      simp [rejectAlways] at hf

/-- C6 witness: the theorem applied to a concrete RANGE node, an operator
kind outside the admitted set, which the scheduler rule set rejects. -/
theorem sched_spec_admits_and_rejects_witness :
    c6_range.op ∉ admittedOps ∧ pmRewrite sched_spec c6_range = .ok false :=
  ⟨by decide, sched_spec_admits_and_rejects.1 c6_range (by decide) (by decide)⟩

/-- C6 counterexample: a bare SINK node is outside the claim's admitted set
of buffer/assign/kernel kinds, yet the scheduler rule set abstains on it
instead of rejecting it. -/
theorem sched_sink_abstains_cex :
    pmRewrite sched_spec c6_sink = .abstain ∧
    c6_sink.op ∉ admittedOps ∧ SpecRet.abstain ≠ SpecRet.ok false :=
  ⟨rfl, by decide, by decide⟩

/-- C7 (corrected): inside a matched pattern the buffer topology predicates
reject: a BUFFER with the device/unique source pair rejects exactly on a
non-integer argument (the dtype conjunct is vacuous), and a BUFFER_VIEW
over one buffer rejects exactly when its argument is not a 2-tuple of
integers or node references; but a node deviating in its source topology
fails the pattern itself, so the rule set abstains rather than rejects. -/
theorem buffer_spec_reject_vs_abstain :
    (∀ b d u2 : UOp, b.op = Ops.BUFFER → b.src = [d, u2] → d.op = Ops.DEVICE →
      u2.op = Ops.UNIQUE → pmRewrite buffer_spec b = .ok b.arg.pyIsInt) ∧
    (∀ bv b : UOp, bv.op = Ops.BUFFER_VIEW → bv.src = [b] → b.op = Ops.BUFFER →
      (pmRewrite buffer_spec bv = .ok false ↔
        ¬∃ x y, bv.arg = PyVal.tupV [x, y] ∧ x.pyIsIntOrNode = true ∧ y.pyIsIntOrNode = true)) ∧
    (∀ b : UOp, b.op = Ops.BUFFER →
      (¬∃ d u2, b.src = [d, u2] ∧ d.op = Ops.DEVICE ∧ u2.op = Ops.UNIQUE) →
      pmRewrite buffer_spec b = .abstain) := by
  refine ⟨?_, ?_, ?_⟩
  · intro b d u2 hb hsrc hd hu
    obtain ⟨o, dt, s, ar, t, z, vn, vx⟩ := b
    obtain ⟨do2, dd, ds, dar, dt2, dz, dvn, dvx⟩ := d
    obtain ⟨uo, ud, us, uar, ut, uz, uvn, uvx⟩ := u2
    simp only [UOp.op, UOp.src] at hb hsrc hd hu
    subst hb hsrc hd hu
    simp [buffer_spec, pmRewrite, upatMatch, opsMatch, dtMatch, usrcMatch, upatIMatch,
      UOp.op, UOp.dtype, UOp.src, UOp.arg, matchLeaves, pat, patD, upA, upOps, upDt,
      dtypeIsDTypeOrImage]
  · intro bv b hb hsrc hbo
    obtain ⟨o, dt, s, ar, t, z, vn, vx⟩ := bv
    obtain ⟨bo, bd, bs, bar, bt, bz, bvn, bvx⟩ := b
    simp only [UOp.op, UOp.src] at hb hsrc hbo
    subst hb hsrc hbo
    simp only [buffer_spec, pmRewrite, upatMatch, opsMatch, dtMatch, usrcMatch, upatIMatch,
      UOp.op, UOp.dtype, UOp.src, UOp.arg, matchLeaves, pat, patD, upA, upOps, upDt]
    rcases ar with _ | i | bb | s2 | q | o2 | (_ | ⟨x, _ | ⟨y, _ | ⟨w, tl⟩⟩⟩) | n | k <;> simp
  · intro b hb hne
    obtain ⟨o, dt, s, ar, t, z, vn, vx⟩ := b
    simp only [UOp.op, UOp.src] at hb hne
    subst hb
    rcases s with _ | ⟨d0, _ | ⟨u0, _ | ⟨w, tl⟩⟩⟩
    · simp [buffer_spec, pmRewrite, upatMatch, opsMatch, dtMatch, usrcMatch, upatIMatch,
        UOp.op, UOp.dtype, UOp.src, matchLeaves, pat, patD, upA, upOps, upDt]
    · simp [buffer_spec, pmRewrite, upatMatch, opsMatch, dtMatch, usrcMatch, upatIMatch,
        UOp.op, UOp.dtype, UOp.src, matchLeaves, pat, patD, upA, upOps, upDt]
    · obtain ⟨do2, dd, ds, dar, dt2, dz, dvn, dvx⟩ := d0
      obtain ⟨uo, ud, us, uar, ut, uz, uvn, uvx⟩ := u0
      have hcon : ¬(do2 = Ops.DEVICE ∧ uo = Ops.UNIQUE) := by
        rintro ⟨h1, h2⟩
        exact hne ⟨_, _, rfl, by simp [UOp.op, h1], by simp [UOp.op, h2]⟩
      by_cases hd : do2 = Ops.DEVICE
      · have hu : uo ≠ Ops.UNIQUE := fun h => hcon ⟨hd, h⟩
        subst hd
        simp [buffer_spec, pmRewrite, upatMatch, opsMatch, dtMatch, usrcMatch, upatIMatch,
          UOp.op, UOp.dtype, UOp.src, matchLeaves, pat, patD, upA, upOps, upDt, hu]
      · simp [buffer_spec, pmRewrite, upatMatch, opsMatch, dtMatch, usrcMatch, upatIMatch,
          UOp.op, UOp.dtype, UOp.src, matchLeaves, pat, patD, upA, upOps, upDt, hd]
    · simp [buffer_spec, pmRewrite, upatMatch, opsMatch, dtMatch, usrcMatch, upatIMatch,
        UOp.op, UOp.dtype, UOp.src, matchLeaves, pat, patD, upA, upOps, upDt]

/-- C7 witness: the theorem applied to a pattern-conforming BUFFER with a
string argument, which the rule set rejects. -/
theorem buffer_spec_reject_vs_abstain_witness :
    pmRewrite buffer_spec c7w_buf = .ok false ∧ c7w_buf.arg.pyIsInt = false := by
  refine ⟨?_, by decide⟩
  rw [buffer_spec_reject_vs_abstain.1 c7w_buf exDev exUniq rfl rfl rfl rfl]
  rfl

/-- C7 counterexample: a BUFFER node with no sources and a non-integer
argument deviates from the structural requirements, yet the buffer topology
rule set abstains on it instead of returning reject as the claim demands. -/
theorem buffer_bad_topology_abstains_cex :
    pmRewrite buffer_spec c7_buf = .abstain ∧
    c7_buf.arg.pyIsInt = false ∧ SpecRet.abstain ≠ SpecRet.ok false :=
  ⟨rfl, by decide, by decide⟩

/-- C8 (corrected): a two-source SHL or SHR is decided by the shift rule:
accepted exactly when the result dtype equals the left operand dtype and
the shift-amount dtype is the left operand dtype or dtypes.uint (the
specific default unsigned dtype, not an arbitrary unsigned integer
dtype). -/
theorem shl_shr_rule_characterization (oob : Bool) (a x y : UOp)
    (hop : a.op = Ops.SHL ∨ a.op = Ops.SHR) (hsrc : a.src = [x, y]) :
    pmRewrite (spec oob) a =
      .ok (a.dtype == x.dtype && (y.dtype == x.dtype || y.dtype == dtypes_uint)) ∧
    (pmRewrite (spec oob) a = .ok true ↔
      (a.dtype = x.dtype ∧ (y.dtype = x.dtype ∨ y.dtype = dtypes_uint))) := by
  have hmain : pmRewrite (spec oob) a =
      .ok (a.dtype == x.dtype && (y.dtype == x.dtype || y.dtype == dtypes_uint)) := by
    obtain ⟨o, d, s, ar, t, z, vn, vx⟩ := a
    simp only [UOp.op] at hop
    simp only [UOp.src] at hsrc
    subst hsrc
    rcases hop with h | h <;> subst h <;>
      simp [spec, pmRewrite, upatMatch, opsMatch, dtMatch, usrcMatch, upatIMatch,
        UOp.op, UOp.dtype, UOp.src, matchLeaves, pat, patD, upA, upOps, upDt,
        acceptAlways, GroupOpALU]
  refine ⟨hmain, ?_⟩
  rw [hmain]
  simp

/-- C8 witness: the theorem applied to a SHL with an int32 left operand and
a dtypes.uint shift amount, which is accepted. -/
theorem shl_shr_rule_characterization_witness :
    pmRewrite (spec false) c8w_shl = .ok true ∧ c8w_y.dtype = dtypes_uint :=
  ⟨(shl_shr_rule_characterization false c8w_shl c8_x c8w_y (Or.inl rfl) rfl).2.mpr
      ⟨rfl, Or.inr rfl⟩, rfl⟩

/-- C8 counterexample: a SHL whose shift amount has the unsigned dtype
uint8 is rejected by the low-level rule set, although its result dtype
equals the left operand dtype and the claim says any unsigned-int shift
amount is accepted. -/
theorem shl_uint8_rejected_cex :
    pmRewrite (spec false) c8_shl = .ok false ∧
    c8_shl.dtype = c8_x.dtype ∧ dtypeIsUnsignedInt c8_y.dtype = true :=
  ⟨rfl, rfl, by decide⟩

/-- C2 (confirmed): for a KERNEL node matched by the assign/kernel rule set
(all sources buffer/buffer-view/assign) whose argument carries a descriptor
with root ast, the rule set raises a hard fatal outcome exactly when the
root is none of COPY/BUFFER_VIEW/SINK or the root is a SINK with a
non-STORE source; otherwise validate_kernel accepts. -/
theorem validate_kernel_hard_assert (k ast : UOp)
    (hop : k.op = Ops.KERNEL)
    (hsrc : ∀ s ∈ k.src, s.op = Ops.BUFFER ∨ s.op = Ops.BUFFER_VIEW ∨ s.op = Ops.ASSIGN)
    (harg : k.arg = PyVal.kernelV ast) :
    ((¬(ast.op = Ops.COPY ∨ ast.op = Ops.BUFFER_VIEW ∨ ast.op = Ops.SINK) ∨
       (ast.op = Ops.SINK ∧ ∃ s ∈ ast.src, s.op ≠ Ops.STORE)) →
      ∃ msg, pmRewrite assign_spec k = .fatal msg) ∧
    ((ast.op = Ops.COPY ∨ ast.op = Ops.BUFFER_VIEW ∨
       (ast.op = Ops.SINK ∧ ∀ s ∈ ast.src, s.op = Ops.STORE)) →
      pmRewrite assign_spec k = .ok true ∧ validate_kernel k = .ok true) := by
  have hall : usrcMatch (USrc.eachSrc (upOps [Ops.BUFFER, Ops.BUFFER_VIEW, Ops.ASSIGN])) k.src = true := by
    simp only [usrcMatch, List.all_eq_true]
    intro s hs
    rcases hsrc s hs with h | h | h <;> simp [upatIMatch, opsMatch, dtMatch, upOps, h]
  constructor
  · intro hbad
    rcases hbad with hnot | ⟨hsink, s0, hs0, hne⟩
    · have h3 : ast.op ≠ Ops.COPY ∧ ast.op ≠ Ops.BUFFER_VIEW ∧ ast.op ≠ Ops.SINK := by tauto
      refine ⟨"must end with SINK/COPY/BUFFER_VIEW", ?_⟩
      simp [assign_spec, pmRewrite, upatMatch, opsMatch, dtMatch, pat, hop, hall,
        validate_kernel, harg, h3.1, h3.2.1, h3.2.2]
    · refine ⟨"SINK must end with STORE", ?_⟩
      have hnall : ¬(ast.src.all (fun s => s.op == Ops.STORE) = true) := by
        simp only [List.all_eq_true, beq_iff_eq]
        intro hcontra
        exact hne (hcontra s0 hs0)
      simp [assign_spec, pmRewrite, upatMatch, opsMatch, dtMatch, pat, hop, hall,
        validate_kernel, harg, hsink, hnall]
  · intro hgood
    have hvk : validate_kernel k = .ok true := by
      rcases hgood with h | h | ⟨h, hall2⟩
      · simp [validate_kernel, harg, h]
      · simp [validate_kernel, harg, h]
      · have hstores : ast.src.all (fun s => s.op == Ops.STORE) = true := by
          simp only [List.all_eq_true, beq_iff_eq]
          exact hall2
        simp [validate_kernel, harg, h, hstores]
    refine ⟨?_, hvk⟩
    simp [assign_spec, pmRewrite, upatMatch, opsMatch, dtMatch, pat, hop, hall, hvk]

/-- C2 witness: the theorem applied to a concrete kernel whose descriptor
root is a SINK over a single STORE; the rule set accepts it. -/
theorem validate_kernel_hard_assert_witness :
    c2_kernel.op = Ops.KERNEL ∧ pmRewrite assign_spec c2_kernel = .ok true := by
  refine ⟨rfl, ?_⟩
  have h := validate_kernel_hard_assert c2_kernel c2_ast rfl
    (by intro s hs; simp [c2_kernel, mkU, UOp.src] at hs) rfl
  exact (h.2 (Or.inr (Or.inr ⟨rfl, by
    intro s hs
    simp [c2_ast, mkU, UOp.src] at hs
    subst hs
    rfl⟩))).1

/-- C9 (confirmed): with the IGNORE_OOB flag set, validate_index accepts
every INDEX node unconditionally; on a concrete out-of-bounds INDEX
(range 10..10 against count 4) the flag flips the verdict from reject to
accept, at the bounds-check level and at the rule-set level. -/
theorem ignore_oob_disables_bounds_check :
    (∀ (idx : UOp) (mask : Option UOp), validate_index true idx mask = .ok true) ∧
    validate_index false c9_idx Option.none = .ok false ∧
    validate_index true c9_idx Option.none = .ok true ∧
    pmRewrite (spec false) c9_idx = .ok false ∧
    pmRewrite (spec true) c9_idx = .ok true :=
  ⟨fun idx mask => rfl, rfl, rfl, rfl, rfl⟩

/-- C3 (corrected): for a maskless non-image INDEX with the flag off, the
bounds check scans the whole INDEX node's dependency closure (buffer source
included, not just the offset expression's) for a DEFINE_VAR, BITCAST or
non-integer-arg SPECIAL and accepts when one is present; otherwise with a
known count it rejects exactly when the offset range leaves [0, count), and
the reported diagnostic carries the range, the bound and the offset
expression. -/
theorem validate_index_bounds (idx buf off : UOp) (b : DType) (sz : Int) (lc : Bool)
    (hsrc : idx.src = [buf, off])
    (himg : idx.dtype.isImage = false)
    (hdt : buf.dtype = DType.ptr b sz lc) :
    (validate_index false idx Option.none = .ok true ↔
      ((toposortN idx).any oobEscape = true ∨ sz = -1 ∨ (0 ≤ off.vmin ∧ off.vmax < sz))) ∧
    (validate_index false idx Option.none = .ok false ↔
      ((toposortN idx).any oobEscape = false ∧ sz ≠ -1 ∧ (off.vmin < 0 ∨ sz ≤ off.vmax))) ∧
    oob_diag idx = some ⟨off.vmin, off.vmax, sz, off⟩ := by
  have hdiag : oob_diag idx = some ⟨off.vmin, off.vmax, sz, off⟩ := by
    simp [oob_diag, hsrc, hdt, DType.ptrSizeOf]
  refine ⟨?_, ?_, hdiag⟩ <;>
  · by_cases hesc : (toposortN idx).any oobEscape = true
    · simp [validate_index, himg, hsrc, hdt, DType.ptrSizeOf, hesc]
    · rw [Bool.not_eq_true] at hesc
      simp only [validate_index, himg, hsrc, hdt, DType.ptrSizeOf, hesc, Bool.false_eq_true,
        if_false, Option.isNone_none, Bool.not_false, Bool.and_true, if_true,
        bne_iff_ne, Bool.and_eq_true, Bool.or_eq_true, decide_eq_true_eq, ge_iff_le]
      split_ifs with hc <;> simp [hesc] <;> omega

/-- C3 witness: the theorem applied to a trigger-free INDEX with range 0..9
against declared count 8, which is rejected with the matching diagnostic. -/
theorem validate_index_bounds_witness :
    c3w_idx.src = [c3w_buf, c3w_off] ∧
    validate_index false c3w_idx Option.none = .ok false ∧
    oob_diag c3w_idx = some ⟨0, 9, 8, c3w_off⟩ := by
  have h := validate_index_bounds c3w_idx c3w_buf c3w_off dtypes_float 8 false rfl rfl rfl
  exact ⟨rfl, h.2.1.mpr ⟨rfl, by decide, Or.inr (by decide)⟩, h.2.2⟩

/-- C3 counterexample: an INDEX whose offset expression (range 5..5, no
trigger of its own) is out of bounds for the declared count 3, which the
claim says must be rejected; the check accepts it because a DEFINE_VAR
hides in the buffer source's subtree, which the code also scans. -/
theorem index_buffer_subtree_escape_cex :
    validate_index false c3_idx Option.none = .ok true ∧
    (toposortN c3_off).any oobEscape = false ∧
    c3_buf.dtype = DType.ptr dtypes_float 3 false ∧
    c3_off.vmin = 5 ∧ c3_off.vmax = 5 :=
  ⟨rfl, rfl, rfl, rfl, rfl⟩

theorem ptx_load_alt_rule (oob : Bool) (u first alt : UOp)
    (hol : u.op = Ops.LOAD)
    (hsrc : u.src = [first, alt])
    (hdt : first.dtype = dtypes_int64)
    (hic : first.op = Ops.INDEX ∨ first.op = Ops.CAST)
    (hni : alt.op ≠ Ops.IF) (hnb : alt.op ≠ Ops.BARRIER) :
    pmRewrite (spec oob) u = .ok (u.dtype == alt.dtype) := by
  obtain ⟨o, d, s, ar, t, z, vn, vx⟩ := u
  obtain ⟨fo, fd, fs, far, ft, fz, fvn, fvx⟩ := first
  obtain ⟨ao, ad, as2, aar, at2, az, avn, avx⟩ := alt
  simp only [UOp.op, UOp.src, UOp.dtype] at hol hsrc hdt hic hni hnb ⊢
  subst hol hsrc hdt
  rcases hic with h | h <;> subst h <;>
    simp [spec, pmRewrite, upatMatch, opsMatch, dtMatch, usrcMatch, upatIMatch,
      UOp.op, UOp.dtype, UOp.src, matchLeaves, pat, patD, upA, upOps, upDt,
      acceptAlways, GroupOpALU, hni, hnb, ite_self]

theorem ptx_otherwise_accepts (oob : Bool) (u first : UOp) (rest : List UOp)
    (hop : u.op = Ops.LOAD ∨ u.op = Ops.STORE)
    (hsrc : u.src = first :: rest)
    (hdt : first.dtype = dtypes_int64)
    (hnb : ¬(u.op = Ops.LOAD ∧ (first.op = Ops.INDEX ∨ first.op = Ops.CAST) ∧
        ∃ alt, rest = [alt] ∧ alt.op ≠ Ops.IF ∧ alt.op ≠ Ops.BARRIER)) :
    pmRewrite (spec oob) u = .ok true := by
  rcases hop with hol | hos
  · by_cases hic : first.op = Ops.INDEX ∨ first.op = Ops.CAST
    · rcases rest with _ | ⟨a, _ | ⟨b, more⟩⟩
      · obtain ⟨o, d, s, ar, t, z, vn, vx⟩ := u
        obtain ⟨fo, fd, fs, far, ft, fz, fvn, fvx⟩ := first
        simp only [UOp.op, UOp.src, UOp.dtype] at hol hsrc hdt hic
        subst hol hsrc hdt
        rcases hic with h | h <;> subst h <;>
          simp [spec, pmRewrite, upatMatch, opsMatch, dtMatch, usrcMatch, upatIMatch,
            UOp.op, UOp.dtype, UOp.src, matchLeaves, pat, patD, upA, upOps, upDt,
            acceptAlways, GroupOpALU, ite_self]
      · have halt : a.op = Ops.IF ∨ a.op = Ops.BARRIER := by
          by_contra hcc
          push_neg at hcc
          exact hnb ⟨hol, hic, a, rfl, hcc.1, hcc.2⟩
        obtain ⟨o, d, s, ar, t, z, vn, vx⟩ := u
        obtain ⟨fo, fd, fs, far, ft, fz, fvn, fvx⟩ := first
        obtain ⟨ao, ad, as2, aar, at2, az, avn, avx⟩ := a
        simp only [UOp.op, UOp.src, UOp.dtype] at hol hsrc hdt hic halt
        subst hol hsrc hdt
        rcases hic with h | h <;> rcases halt with h2 | h2 <;> subst h <;> subst h2 <;>
          simp [spec, pmRewrite, upatMatch, opsMatch, dtMatch, usrcMatch, upatIMatch,
            UOp.op, UOp.dtype, UOp.src, matchLeaves, pat, patD, upA, upOps, upDt,
            acceptAlways, GroupOpALU, ite_self]
      · obtain ⟨o, d, s, ar, t, z, vn, vx⟩ := u
        obtain ⟨fo, fd, fs, far, ft, fz, fvn, fvx⟩ := first
        simp only [UOp.op, UOp.src, UOp.dtype] at hol hsrc hdt hic
        subst hol hsrc hdt
        rcases hic with h | h <;> subst h <;>
          simp [spec, pmRewrite, upatMatch, opsMatch, dtMatch, usrcMatch, upatIMatch,
            UOp.op, UOp.dtype, UOp.src, matchLeaves, pat, patD, upA, upOps, upDt,
            acceptAlways, GroupOpALU, ite_self]
    · push_neg at hic
      obtain ⟨o, d, s, ar, t, z, vn, vx⟩ := u
      obtain ⟨fo, fd, fs, far, ft, fz, fvn, fvx⟩ := first
      simp only [UOp.op, UOp.src, UOp.dtype] at hol hsrc hdt hic
      subst hol hsrc hdt
      rcases rest with _ | ⟨a, _ | ⟨b, more⟩⟩ <;>
        simp [spec, pmRewrite, upatMatch, opsMatch, dtMatch, usrcMatch, upatIMatch,
          UOp.op, UOp.dtype, UOp.src, matchLeaves, pat, patD, upA, upOps, upDt,
          acceptAlways, GroupOpALU, hic.1, hic.2, ite_self]
  · obtain ⟨o, d, s, ar, t, z, vn, vx⟩ := u
    obtain ⟨fo, fd, fs, far, ft, fz, fvn, fvx⟩ := first
    simp only [UOp.op, UOp.src, UOp.dtype] at hos hsrc hdt
    subst hos hsrc hdt
    rcases rest with _ | ⟨a, _ | ⟨b, _ | ⟨c, more⟩⟩⟩ <;>
      simp [spec, pmRewrite, upatMatch, opsMatch, dtMatch, usrcMatch, upatIMatch,
        UOp.op, UOp.dtype, UOp.src, matchLeaves, pat, patD, upA, upOps, upDt,
        acceptAlways, GroupOpALU, ite_self]

/-- C10 (corrected): a LOAD or STORE whose first source has dtype int64 is
accepted by the low-level rule set with no further checks, except in one
preempted case: a two-source LOAD whose first source is an INDEX or CAST
and whose second source is neither IF nor BARRIER is decided earlier by the
indexed-load rule, which compares the LOAD dtype with the second source's
dtype. -/
theorem ptx_load_store_catchall (oob : Bool) (u first : UOp) (rest : List UOp)
    (hop : u.op = Ops.LOAD ∨ u.op = Ops.STORE)
    (hsrc : u.src = first :: rest)
    (hdt : first.dtype = dtypes_int64) :
    (∀ alt, u.op = Ops.LOAD → (first.op = Ops.INDEX ∨ first.op = Ops.CAST) →
      rest = [alt] → alt.op ≠ Ops.IF → alt.op ≠ Ops.BARRIER →
      pmRewrite (spec oob) u = .ok (u.dtype == alt.dtype)) ∧
    (¬(u.op = Ops.LOAD ∧ (first.op = Ops.INDEX ∨ first.op = Ops.CAST) ∧
        ∃ alt, rest = [alt] ∧ alt.op ≠ Ops.IF ∧ alt.op ≠ Ops.BARRIER) →
      pmRewrite (spec oob) u = .ok true) := by
  constructor
  · intro alt hol hic hrest hni hnb2
    subst hrest
    exact ptx_load_alt_rule oob u first alt hol hsrc hdt hic hni hnb2
  · intro hnb
    exact ptx_otherwise_accepts oob u first rest (by tauto) hsrc hdt hnb

/-- C10 witness: the theorem applied to a LOAD whose single source is a bare
int64 address expression; only the catch-all rule matches and accepts. -/
theorem ptx_load_store_catchall_witness :
    c10w_load.src = [c10w_addr] ∧ c10w_addr.dtype = dtypes_int64 ∧
    pmRewrite (spec false) c10w_load = .ok true := by
  refine ⟨rfl, rfl, ?_⟩
  exact (ptx_load_store_catchall false c10w_load c10w_addr [] (Or.inl rfl) rfl rfl).2
    (by rintro ⟨-, -, alt, halt, -, -⟩; simp at halt)

/-- C10 counterexample: a float32 LOAD whose first source is an int64 CAST
and whose second source is an int32 CONST is rejected by the earlier
indexed-load dtype-agreement rule, although the claim says any LOAD with an
int64 first source is accepted regardless of its remaining sources. -/
theorem ptx_preempted_reject_cex :
    c10_load.src = [c10_cast, c10_alt] ∧ c10_cast.dtype = dtypes_int64 ∧
    pmRewrite (spec false) c10_load = .ok false :=
  ⟨rfl, rfl, rfl⟩

theorem retOpt_eq_some_false {r : SpecRet} : retOpt r = some false ↔ r = SpecRet.ok false := by
  cases r <;> simp [retOpt]

theorem retOpt_eq_none_iff {r : SpecRet} (h : ∀ msg, r ≠ SpecRet.fatal msg) :
    retOpt r = Option.none ↔ r = SpecRet.abstain := by
  cases r with
  | ok b => simp [retOpt]
  | abstain => simp [retOpt]
  | fatal msg => exact absurd rfl (h msg)
theorem specRetsAt_cases (specs : List VSpec) (u : UOp) :
    (specRetsAt specs u = .ok (specs.map (fun s => retOpt (pmRewrite s u))) ∧ nodeNoFatal specs u) ∨
    (∃ msg, specRetsAt specs u = .error msg ∧ ¬ nodeNoFatal specs u) := by
  induction specs with
  | nil => exact Or.inl ⟨rfl, by simp [nodeNoFatal]⟩
  | cons sp rest ih =>
    cases hr : pmRewrite sp u with
    | fatal msg =>
      refine Or.inr ⟨msg, by simp [specRetsAt, hr], ?_⟩
      intro hn
      exact hn sp (List.mem_cons_self _ _) msg hr
    | ok b =>
      rcases ih with ⟨hok, hnf⟩ | ⟨msg, herr, hnf⟩
      · refine Or.inl ⟨?_, ?_⟩
        · simp [specRetsAt, hr, hok, retOpt, Except.map]
        · intro s hs msg h
          rcases List.mem_cons.mp hs with rfl | hs2
          · rw [hr] at h
            simp at h
          · exact hnf s hs2 msg h
      · refine Or.inr ⟨msg, by simp [specRetsAt, hr, herr, Except.map], ?_⟩
        intro hn
        exact hnf (fun s hs msg2 h => hn s (List.mem_cons_of_mem _ hs) msg2 h)
    | abstain =>
      rcases ih with ⟨hok, hnf⟩ | ⟨msg, herr, hnf⟩
      · refine Or.inl ⟨?_, ?_⟩
        · simp [specRetsAt, hr, hok, retOpt, Except.map]
        · intro s hs msg h
          rcases List.mem_cons.mp hs with rfl | hs2
          · rw [hr] at h
            simp at h
          · exact hnf s hs2 msg h
      · refine Or.inr ⟨msg, by simp [specRetsAt, hr, herr, Except.map], ?_⟩
        intro hn
        exact hnf (fun s hs msg2 h => hn s (List.mem_cons_of_mem _ hs) msg2 h)

theorem rets_any_false_iff (specs : List VSpec) (u : UOp) :
    ((specs.map (fun s => retOpt (pmRewrite s u))).any (fun r => r == some false) = true) ↔
    nodeRejects specs u := by
  rw [List.any_eq_true]
  constructor
  · rintro ⟨r, hr, hbeq⟩
    obtain ⟨s, hs, rfl⟩ := List.mem_map.mp hr
    exact ⟨s, hs, retOpt_eq_some_false.mp (by simpa using hbeq)⟩
  · rintro ⟨s, hs, h⟩
    exact ⟨retOpt (pmRewrite s u), List.mem_map_of_mem _ hs,
      by simp only [beq_iff_eq]; exact retOpt_eq_some_false.mpr h⟩

theorem rets_all_none_iff (specs : List VSpec) (u : UOp) (hnf : nodeNoFatal specs u) :
    ((specs.map (fun s => retOpt (pmRewrite s u))).all (fun r => r == (Option.none : Option Bool)) = true) ↔
    nodeAllAbstain specs u := by
  rw [List.all_eq_true]
  constructor
  · intro h s hs
    have hh := h (retOpt (pmRewrite s u)) (List.mem_map_of_mem _ hs)
    exact (retOpt_eq_none_iff (hnf s hs)).mp (by simpa using hh)
  · intro h r hr
    obtain ⟨s, hs, rfl⟩ := List.mem_map.mp hr
    simp only [beq_iff_eq]
    exact (retOpt_eq_none_iff (hnf s hs)).mpr (h s hs)

theorem tvf_ok_iff (specs : List VSpec) (uops : List UOp) : ∀ i : Nat,
    type_verify_from specs i uops = .okV ↔ ∀ u ∈ uops, nodeClean specs u := by
  induction uops with
  | nil => intro i; simp [type_verify_from]
  | cons u rest ih =>
    intro i
    rcases specRetsAt_cases specs u with ⟨hok, hnf⟩ | ⟨msg, herr, hnf⟩
    · simp only [type_verify_from, hok]
      by_cases hcond : ((specs.map fun s => retOpt (pmRewrite s u)).any (fun r => r == some false) ||
          (specs.map fun s => retOpt (pmRewrite s u)).all (fun r => r == (Option.none : Option Bool))) = true
      · rw [if_pos hcond]
        have hfails : nodeFails specs u := by
          have hc2 := hcond
          simp only [Bool.or_eq_true] at hc2
          rcases hc2 with h | h
          · exact Or.inl ((rets_any_false_iff specs u).mp h)
          · exact Or.inr ((rets_all_none_iff specs u hnf).mp h)
        constructor
        · intro h
          exact VResult.noConfusion h
        · intro hall
          exact absurd hfails (hall u (List.mem_cons_self _ _)).2
      · rw [if_neg hcond]
        have hnfails : ¬ nodeFails specs u := by
          intro hf
          apply hcond
          simp only [Bool.or_eq_true]
          rcases hf with h | h
          · exact Or.inl ((rets_any_false_iff specs u).mpr h)
          · exact Or.inr ((rets_all_none_iff specs u hnf).mpr h)
        rw [ih (i + 1)]
        constructor
        · intro h v hv
          rcases List.mem_cons.mp hv with rfl | hv2
          · exact ⟨hnf, hnfails⟩
          · exact h v hv2
        · intro h v hv
          exact h v (List.mem_cons_of_mem _ hv)
    · simp only [type_verify_from, herr]
      constructor
      · intro h
        exact VResult.noConfusion h
      · intro hall
        exact absurd (hall u (List.mem_cons_self _ _)).1 hnf

theorem tvf_err_iff (specs : List VSpec) (uops : List UOp) :
    ∀ (i j : Nat) (op : Ops) (dt : DType) (n : Nat) (sops : List Ops) (a : PyVal),
    type_verify_from specs i uops = .errV j op dt n sops a ↔
      ∃ k u, uops[k]? = some u ∧ j = i + k ∧ nodeNoFatal specs u ∧ nodeFails specs u ∧
        (∀ m, m < k → ∀ v, uops[m]? = some v → nodeClean specs v) ∧
        op = u.op ∧ dt = u.dtype ∧ n = u.src.length ∧ sops = u.src.map UOp.op ∧ a = u.arg := by
  induction uops with
  | nil =>
    intro i j op dt n sops a
    simp [type_verify_from]
  | cons u rest ih =>
    intro i j op dt n sops a
    rcases specRetsAt_cases specs u with ⟨hok, hnf⟩ | ⟨msg, herr, hnf⟩
    · simp only [type_verify_from, hok]
      by_cases hcond : ((specs.map fun s => retOpt (pmRewrite s u)).any (fun r => r == some false) ||
          (specs.map fun s => retOpt (pmRewrite s u)).all (fun r => r == (Option.none : Option Bool))) = true
      · rw [if_pos hcond]
        have hfails : nodeFails specs u := by
          have hc2 := hcond
          simp only [Bool.or_eq_true] at hc2
          rcases hc2 with h | h
          · exact Or.inl ((rets_any_false_iff specs u).mp h)
          · exact Or.inr ((rets_all_none_iff specs u hnf).mp h)
        constructor
        · intro h
          injection h with h1 h2 h3 h4 h5 h6
          refine ⟨0, u, by simp, by omega, hnf, hfails, ?_, h2.symm, h3.symm, h4.symm,
            h5.symm, h6.symm⟩
          intro m hm v hv
          exact absurd hm (Nat.not_lt_zero m)
        · rintro ⟨k, u2, hget, hj, hnf2, hfails2, hprior, hop, hdt2, hn, hsops, ha⟩
          cases k with
          | zero =>
            simp only [List.getElem?_cons_zero, Option.some.injEq] at hget
            subst hget
            subst hop hdt2 hn hsops ha
            rw [hj, Nat.add_zero]
          | succ k2 =>
            exact absurd hfails ((hprior 0 (Nat.succ_pos k2) u (by simp)).2)
      · rw [if_neg hcond]
        have hnfails : ¬ nodeFails specs u := by
          intro hf
          apply hcond
          simp only [Bool.or_eq_true]
          rcases hf with h | h
          · exact Or.inl ((rets_any_false_iff specs u).mpr h)
          · exact Or.inr ((rets_all_none_iff specs u hnf).mpr h)
        rw [ih (i + 1) j op dt n sops a]
        constructor
        · rintro ⟨k, u2, hget, hj, hnf2, hfails2, hprior, hrest⟩
          refine ⟨k + 1, u2, by simpa using hget, by omega, hnf2, hfails2, ?_, hrest⟩
          intro m hm v hv
          cases m with
          | zero =>
            simp only [List.getElem?_cons_zero, Option.some.injEq] at hv
            subst hv
            exact ⟨hnf, hnfails⟩
          | succ m2 =>
            exact hprior m2 (by omega) v (by simpa using hv)
        · rintro ⟨k, u2, hget, hj, hnf2, hfails2, hprior, hrest⟩
          cases k with
          | zero =>
            simp only [List.getElem?_cons_zero, Option.some.injEq] at hget
            subst hget
            exact absurd hfails2 hnfails
          | succ k2 =>
            refine ⟨k2, u2, by simpa using hget, by omega, hnf2, hfails2, ?_, hrest⟩
            intro m hm v hv
            exact hprior (m + 1) (by omega) v (by simpa using hv)
    · simp only [type_verify_from, herr]
      constructor
      · intro h
        exact VResult.noConfusion h
      · rintro ⟨k, u2, hget, hj, hnf2, hfails2, hprior, hrest⟩
        exfalso
        cases k with
        | zero =>
          simp only [List.getElem?_cons_zero, Option.some.injEq] at hget
          subst hget
          exact hnf hnf2
        | succ k2 =>
          exact hnf ((hprior 0 (Nat.succ_pos k2) u (by simp)).1)

theorem tvf_fatal_iff (specs : List VSpec) (uops : List UOp) : ∀ (i : Nat) (msg : String),
    type_verify_from specs i uops = .assertFail msg ↔
      ∃ (k : Nat) (u : UOp), uops[k]? = some u ∧ specRetsAt specs u = .error msg ∧
        (∀ m, m < k → ∀ v, uops[m]? = some v → nodeClean specs v) := by
  induction uops with
  | nil =>
    intro i msg
    simp [type_verify_from]
  | cons u rest ih =>
    intro i msg
    rcases specRetsAt_cases specs u with ⟨hok, hnf⟩ | ⟨msg0, herr, hnf⟩
    · simp only [type_verify_from, hok]
      by_cases hcond : ((specs.map fun s => retOpt (pmRewrite s u)).any (fun r => r == some false) ||
          (specs.map fun s => retOpt (pmRewrite s u)).all (fun r => r == (Option.none : Option Bool))) = true
      · rw [if_pos hcond]
        have hfails : nodeFails specs u := by
          have hc2 := hcond
          simp only [Bool.or_eq_true] at hc2
          rcases hc2 with h | h
          · exact Or.inl ((rets_any_false_iff specs u).mp h)
          · exact Or.inr ((rets_all_none_iff specs u hnf).mp h)
        constructor
        · intro h
          exact VResult.noConfusion h
        · rintro ⟨k, u2, hget, herr2, hprior⟩
          exfalso
          cases k with
          | zero =>
            simp only [List.getElem?_cons_zero, Option.some.injEq] at hget
            subst hget
            rw [hok] at herr2
            exact Except.noConfusion herr2
          | succ k2 =>
            exact absurd hfails ((hprior 0 (Nat.succ_pos k2) u (by simp)).2)
      · rw [if_neg hcond]
        have hnfails : ¬ nodeFails specs u := by
          intro hf
          apply hcond
          simp only [Bool.or_eq_true]
          rcases hf with h | h
          · exact Or.inl ((rets_any_false_iff specs u).mpr h)
          · exact Or.inr ((rets_all_none_iff specs u hnf).mpr h)
        rw [ih (i + 1) msg]
        constructor
        · rintro ⟨k, u2, hget, herr2, hprior⟩
          refine ⟨k + 1, u2, by simpa using hget, herr2, ?_⟩
          intro m hm v hv
          cases m with
          | zero =>
            simp only [List.getElem?_cons_zero, Option.some.injEq] at hv
            subst hv
            exact ⟨hnf, hnfails⟩
          | succ m2 =>
            exact hprior m2 (by omega) v (by simpa using hv)
        · rintro ⟨k, u2, hget, herr2, hprior⟩
          cases k with
          | zero =>
            simp only [List.getElem?_cons_zero, Option.some.injEq] at hget
            subst hget
            rw [hok] at herr2
            exact Except.noConfusion herr2
          | succ k2 =>
            refine ⟨k2, u2, by simpa using hget, herr2, ?_⟩
            intro m hm v hv
            exact hprior (m + 1) (by omega) v (by simpa using hv)
    · simp only [type_verify_from, herr]
      constructor
      · intro h
        injection h with h1
        refine ⟨0, u, by simp, ?_, ?_⟩
        · rw [herr, h1]
        · intro m hm v hv
          exact absurd hm (Nat.not_lt_zero m)
      · rintro ⟨k, u2, hget, herr2, hprior⟩
        cases k with
        | zero =>
          simp only [List.getElem?_cons_zero, Option.some.injEq] at hget
          subst hget
          rw [herr] at herr2
          injection herr2 with h2
          rw [h2]
        | succ k2 =>
          exact absurd ((hprior 0 (Nat.succ_pos k2) u (by simp)).1) hnf

/-- C1 (corrected): type_verify raises the indexed diagnostic at i exactly
when i is the first index whose node is rejected by some active rule set or
abstained on by all of them (the low-level set always active), with the
diagnostic carrying the node's position, operator, dtype, source count,
source operators and argument; it returns normally exactly when every node
is clean; and a hard assertion raised by a rule predicate (kernel
validation) propagates instead of the indexed diagnostic. -/
theorem type_verify_first_failure (oob : Bool) (extra_specs : List VSpec) (uops : List UOp) :
    (type_verify oob uops extra_specs = .okV ↔
      ∀ u ∈ uops, nodeClean (spec oob :: extra_specs) u) ∧
    (∀ (i : Nat) (op : Ops) (dt : DType) (n : Nat) (sops : List Ops) (a : PyVal),
      type_verify oob uops extra_specs = .errV i op dt n sops a ↔
        ∃ u, uops[i]? = some u ∧ nodeNoFatal (spec oob :: extra_specs) u ∧
          nodeFails (spec oob :: extra_specs) u ∧
          (∀ m, m < i → ∀ v, uops[m]? = some v → nodeClean (spec oob :: extra_specs) v) ∧
          op = u.op ∧ dt = u.dtype ∧ n = u.src.length ∧ sops = u.src.map UOp.op ∧ a = u.arg) ∧
    (∀ msg : String,
      type_verify oob uops extra_specs = .assertFail msg ↔
        ∃ (k : Nat) (u : UOp), uops[k]? = some u ∧
          specRetsAt (spec oob :: extra_specs) u = .error msg ∧
          (∀ m, m < k → ∀ v, uops[m]? = some v → nodeClean (spec oob :: extra_specs) v)) := by
  refine ⟨tvf_ok_iff _ _ 0, ?_, fun msg => tvf_fatal_iff _ _ 0 msg⟩
  intro i op dt n sops a
  rw [type_verify, tvf_err_iff (spec oob :: extra_specs) uops 0 i op dt n sops a]
  constructor
  · rintro ⟨k, u, hget, hj, hrest⟩
    have hik : i = k := by omega
    subst hik
    exact ⟨u, hget, hrest⟩
  · rintro ⟨u, hget, hrest⟩
    exact ⟨i, u, hget, by omega, hrest⟩

/-- C1 counterexample: a list holding one kernel node with a bad descriptor
root, verified with the assign rule set active: the node is neither
rejected by a set nor abstained on by all (the assign set raises), so per
the claim type_verify should return normally, yet it terminates with the
propagated assertion. -/
theorem type_verify_assert_propagates_cex :
    type_verify false [c1_kernel] [assign_spec] =
      .assertFail "must end with SINK/COPY/BUFFER_VIEW" ∧
    ¬ nodeFails [spec false, assign_spec] c1_kernel := by
  refine ⟨rfl, ?_⟩
  intro h
  rcases h with ⟨s, hs, hfalse⟩ | hall
  · rcases List.mem_cons.mp hs with rfl | hs2
    · rw [show pmRewrite (spec false) c1_kernel = SpecRet.abstain from rfl] at hfalse
      exact SpecRet.noConfusion hfalse
    · rcases List.mem_cons.mp hs2 with rfl | hs3
      · rw [show pmRewrite assign_spec c1_kernel =
            SpecRet.fatal "must end with SINK/COPY/BUFFER_VIEW" from rfl] at hfalse
        exact SpecRet.noConfusion hfalse
      · exact absurd hs3 (List.not_mem_nil s)
  · have hcall := hall assign_spec (by simp)
    rw [show pmRewrite assign_spec c1_kernel =
        SpecRet.fatal "must end with SINK/COPY/BUFFER_VIEW" from rfl] at hcall
    exact SpecRet.noConfusion hcall

theorem pyZip_col_ne_nil (ls : List (List Nat)) (col : List Nat) (h : col ∈ pyZip ls) :
    col ≠ [] := by
  cases ls with
  | nil => simp [pyZip] at h
  | cons l0 rest =>
    simp only [pyZip, List.mem_map] at h
    obtain ⟨i, hi, rfl⟩ := h
    simp

theorem sortedDedup_check_iff (col : List Nat) (hne : col ≠ []) :
    (((sortedDedup col).length == 1) ||
      (((sortedDedup col).length == 2) && ((sortedDedup col).headD 0 == 1))) = true ↔
    (col.toFinset.card = 1 ∨ (col.toFinset.card = 2 ∧ 1 ∈ col.toFinset ∧ 0 ∉ col.toFinset)) := by
  have hperm : (sortedDedup col).Perm col.dedup := List.perm_insertionSort _ _
  have hsorted : List.Sorted (· ≤ ·) (sortedDedup col) := List.sorted_insertionSort _ _
  have hnd : (sortedDedup col).Nodup := hperm.nodup_iff.mpr col.nodup_dedup
  have hlen : (sortedDedup col).length = col.toFinset.card := by
    rw [hperm.length_eq]
    exact (List.card_toFinset col).symm
  have hmem : ∀ x : Nat, x ∈ sortedDedup col ↔ x ∈ col.toFinset := by
    intro x
    rw [hperm.mem_iff, List.mem_dedup, List.mem_toFinset]
  have hsdne : sortedDedup col ≠ [] := by
    intro h
    rw [h] at hperm
    exact hne ((List.dedup_eq_nil col).mp hperm.symm.eq_nil)
  rcases hsd : sortedDedup col with _ | ⟨x, _ | ⟨y, _ | ⟨w, tl⟩⟩⟩
  · exact absurd hsd hsdne
  · rw [hsd] at hlen
    simp only [List.length_cons, List.length_nil] at hlen
    constructor
    · intro _
      exact Or.inl hlen.symm
    · intro _
      simp
  · rw [hsd] at hlen hmem hsorted hnd
    have hxy : x ≤ y := (List.sorted_cons.mp hsorted).1 y (by simp)
    have hne2 : x ≠ y := by
      simp only [List.nodup_cons, List.mem_singleton] at hnd
      exact hnd.1
    have hcard : col.toFinset.card = 2 := by
      simpa using hlen.symm
    have h1mem : (1 : Nat) ∈ col.toFinset ↔ (1 = x ∨ 1 = y) := by
      rw [← hmem 1]
      simp
    have h0mem : (0 : Nat) ∈ col.toFinset ↔ (0 = x ∨ 0 = y) := by
      rw [← hmem 0]
      simp
    constructor
    · intro h
      have hx1 : x = 1 := by simpa using h
      refine Or.inr ⟨hcard, h1mem.mpr (Or.inl hx1.symm), ?_⟩
      rw [h0mem]
      rintro (h0 | h0) <;> omega
    · intro h
      rcases h with hcard1 | ⟨hcard2, h1, h0⟩
      · omega
      · have h1' := h1mem.mp h1
        have h0' : ¬(0 = x ∨ 0 = y) := fun hx => h0 (h0mem.mpr hx)
        push_neg at h0'
        have hx1 : x = 1 := by
          rcases h1' with h | h <;> omega
        simp [hx1]
  · rw [hsd] at hlen
    simp only [List.length_cons] at hlen
    constructor
    · intro h
      simp at h
    · intro h
      exfalso
      rcases h with h1 | ⟨h2, _⟩ <;> omega

/-- C4 (corrected): a SINK whose direct sources are all STOREs is accepted
by the shape-consistency rule set exactly when every direct source reports
the identical total element count and, for every dimension index below the
minimum rank among the shaped non-SINK nodes of its dependency closure
(the zip-based collection never reaches higher indices), the distinct-size
set at that index is a singleton or a two-element set whose smaller value
is 1; every non-SINK node is accepted exactly when its shaped sources all
report the identical shape tuple. -/
theorem shape_spec_characterization :
    (∀ sink : UOp, sink.op = Ops.SINK → (∀ s ∈ sink.src, s.op = Ops.STORE) →
      (pmRewrite shape_spec sink = .ok true ↔
        ((∀ x ∈ sink.src, ∀ y ∈ sink.src, x.stArgSize = y.stArgSize) ∧
         ∀ col ∈ pyZip (((toposortN sink).filter
             (fun x => x.op != Ops.SINK && x.st.isSome)).map UOp.shapeD),
           (col.toFinset.card = 1 ∨
            (col.toFinset.card = 2 ∧ 1 ∈ col.toFinset ∧ 0 ∉ col.toFinset))))) ∧
    (∀ u : UOp, u.op ≠ Ops.SINK →
      (pmRewrite shape_spec u = .ok true ↔
        ∀ x ∈ u.src.filter (fun v => v.st.isSome), ∀ y ∈ u.src.filter (fun v => v.st.isSome),
          x.shapeD = y.shapeD)) := by
  constructor
  · intro sink hop hsrc
    have hall : usrcMatch (USrc.eachSrc (upOps [Ops.STORE])) sink.src = true := by
      simp only [usrcMatch, List.all_eq_true]
      intro s hs
      simp [upatIMatch, opsMatch, dtMatch, upOps, hsrc s hs]
    have hrw : pmRewrite shape_spec sink = .ok (verify_sink_dims sink) := by
      simp [shape_spec, pmRewrite, upatMatch, opsMatch, dtMatch, pat, hop, hall]
    rw [hrw]
    simp only [SpecRet.ok.injEq]
    rw [verify_sink_dims]
    simp only [Bool.and_eq_true, List.all_eq_true]
    constructor
    · rintro ⟨hsz, hdims⟩
      constructor
      · rw [allSame_iff] at hsz
        intro x hx y hy
        exact hsz _ (List.mem_map_of_mem _ hx) _ (List.mem_map_of_mem _ hy)
      · intro col hcol
        have hc := hdims (sortedDedup col) (List.mem_map_of_mem _ hcol)
        exact (sortedDedup_check_iff col (pyZip_col_ne_nil _ _ hcol)).mp hc
    · rintro ⟨hsz, hdims⟩
      constructor
      · rw [allSame_iff]
        intro a ha b hb
        obtain ⟨x, hx, rfl⟩ := List.mem_map.mp ha
        obtain ⟨y, hy, rfl⟩ := List.mem_map.mp hb
        exact hsz x hx y hy
      · intro sd hsd
        obtain ⟨col, hcol, rfl⟩ := List.mem_map.mp hsd
        exact (sortedDedup_check_iff col (pyZip_col_ne_nil _ _ hcol)).mpr (hdims col hcol)
  · intro u hne
    have hmem : u.op ∈ allOpsExceptSink := mem_allOpsExceptSink u.op hne
    have hr : pmRewrite shape_spec u =
        .ok (allSame ((u.src.filter (fun x => x.st.isSome)).map UOp.shapeD)) := by
      simp [shape_spec, pmRewrite, upatMatch, opsMatch, dtMatch, usrcMatch, pat, hne, hmem]
    rw [hr]
    simp only [SpecRet.ok.injEq]
    rw [allSame_iff]
    constructor
    · intro h x hx y hy
      exact h _ (List.mem_map_of_mem _ hx) _ (List.mem_map_of_mem _ hy)
    · intro h a ha b hb
      obtain ⟨x, hx, rfl⟩ := List.mem_map.mp ha
      obtain ⟨y, hy, rfl⟩ := List.mem_map.mp hb
      exact h x hx y hy

/-- C4 witness: the theorem applied to a broadcast-legal SINK over stores
of shapes 1 x 5 and 3 x 5 with equal sizes, which is accepted. -/
theorem shape_spec_characterization_witness :
    (∀ s ∈ c4w_sink.src, s.op = Ops.STORE) ∧ pmRewrite shape_spec c4w_sink = .ok true := by
  have hsrc : ∀ s ∈ c4w_sink.src, s.op = Ops.STORE := by
    intro s hs
    simp [c4w_sink, mkU, UOp.src] at hs
    rcases hs with rfl | rfl <;> rfl
  refine ⟨hsrc, ?_⟩
  exact (shape_spec_characterization.1 c4w_sink rfl hsrc).mpr (by decide)

/-- C4 counterexample: a SINK over stores of ragged ranks is accepted by
the rule set although dimension index 1 carries the distinct sizes 5 and 7
(cardinality two, neither equal to 1), which the claim says must reject:
the zip-based collection truncates at the shortest shape and never checks
that index. -/
theorem shape_ragged_rank_accepted_cex :
    pmRewrite shape_spec c4_sink = .ok true ∧
    (sizesAtDim c4_sink 1).card = 2 ∧ (1 : Nat) ∉ sizesAtDim c4_sink 1 :=
  ⟨rfl, by decide, by decide⟩
